import Mathlib

/-!
Verification of the Connect-4 board engine.

This file gives a shallow embedding of the two Python source variants:

* `connect4_game.py` — the class `Connect4Game` with methods
  `is_valid_column`, `drop_piece`, `check_winner`, `is_board_full`,
  `play_turn`, embedded below under the same names.
* `connect4_integrated.py` — the module-level functions `checkwin` and
  `convert_board_to_baml_format`, embedded under the same names.

A board is a total function `Nat → Nat → Option String`; the in-play grid
is rows `0..5` and columns `0..6`.  The Python empty sentinel (`"  "` in
the class variant, `' '` in the integrated variant) is modelled as `none`,
and an owned cell holding the player string `p` as `some p`.  Every board
access the Python code performs is bounds-checked before indexing, so the
total-function model is faithful on the grid.  Column indices arriving
from callers are Python ints and may be negative, so they are modelled as
`Int`.
-/

namespace Connect4

abbrev Cell := Option String

abbrev Board := Nat → Nat → Cell

/-- Class constant `ROWS = 6` of `Connect4Game`. -/
abbrev ROWS : Nat := 6

/-- Class constant `COLS = 7` of `Connect4Game`. -/
abbrev COLS : Nat := 7

/-- The board created by `Connect4Game.__init__`: every cell holds the
empty sentinel. -/
def emptyBoard : Board := fun _ _ => none

/-- Point update of a board: the effect of the assignment
`self.board[row][col] = v`. -/
def setCell (b : Board) (row col : Nat) (v : Cell) : Board :=
  fun r c => if r = row && c = col then v else b r c

/-- Read a cell at `Int` coordinates.  Used only behind the bounds checks
that the Python code itself performs. -/
def getC (b : Board) (r c : Int) : Cell := b r.toNat c.toNat

/-- The bounds check `0 <= r < self.ROWS and 0 <= c < self.COLS` from
`check_winner`. -/
def inBounds (r c : Int) : Bool :=
  decide (0 ≤ r) && decide (r < (ROWS : Int)) &&
  decide (0 ≤ c) && decide (c < (COLS : Int))

/-- `Connect4Game.is_valid_column`:
`0 <= col < self.COLS and self.board[0][col] == "  "`. -/
def is_valid_column (b : Board) (col : Int) : Bool :=
  decide (0 ≤ col) && decide (col < (COLS : Int)) && (b 0 col.toNat == none)

/-- The scan `for row in range(self.ROWS - 1, -1, -1)` of `drop_piece`:
starting at row `r` and walking down to row 0, return the first row whose
cell in column `col` is empty. -/
def findEmptyDown (b : Board) (col : Nat) : Nat → Option Nat
  | 0 => if b 0 col == none then some 0 else none
  | r + 1 => if b (r + 1) col == none then some (r + 1) else findEmptyDown b col r

/-- `Connect4Game.drop_piece`: re-validate the column, then place the
piece in the first empty row found scanning from the bottom row upward.
Returns the Python return value paired with the resulting board. -/
def drop_piece (b : Board) (col : Int) (p : String) : Bool × Board :=
  if is_valid_column b col then
    match findEmptyDown b col.toNat (ROWS - 1) with
    | some r => (true, setCell b r col.toNat (some p))
    | none => (false, b)
  else
    (false, b)

/-- The direction list of `check_winner`: horizontal, vertical,
diagonal down-right, diagonal down-left. -/
def directions : List (Int × Int) := [(0, 1), (1, 0), (1, 1), (1, -1)]

/-- One iteration of the inner loop `for i in range(1, 4)` of
`check_winner`: the offset cell is in bounds and owned by `p`. -/
def stepOK (b : Board) (p : String) (row col dr dc i : Int) : Bool :=
  inBounds (row + dr * i) (col + dc * i) &&
  (getC b (row + dr * i) (col + dc * i) == some p)

/-- The counting loop of `check_winner`: add 1 per consecutive success
over the given offsets, stopping at the first failure (the `break`). -/
def countRun (b : Board) (p : String) (row col dr dc : Int) : List Int → Nat
  | [] => 0
  | i :: rest =>
    if stepOK b p row col dr dc i then 1 + countRun b p row col dr dc rest
    else 0

/-- The run length computed by `check_winner` for one origin and one
direction: `count = 1`, then the loop over offsets `1, 2, 3`. -/
def runCount (b : Board) (p : String) (row col dr dc : Int) : Nat :=
  1 + countRun b p row col dr dc [1, 2, 3]

/-- `Connect4Game.check_winner`: scan origins row-major; skip empty
cells; for each direction in order return the owner as soon as a count
reaches 4. -/
def check_winner (b : Board) : Option String :=
  (List.range ROWS).findSome? fun row =>
    (List.range COLS).findSome? fun col =>
      match b row col with
      | none => none
      | some p =>
        directions.findSome? fun d =>
          if 4 ≤ runCount b p row col d.1 d.2 then some p else none

/-- `Connect4Game.is_board_full`:
`all(self.board[0][col] != "  " for col in range(self.COLS))`. -/
def is_board_full (b : Board) : Bool :=
  (List.range COLS).all fun col => !(b 0 col == none)

/-- The session state of `Connect4Game`: the fields set by `__init__` and
mutated by `drop_piece` and `play_turn`. -/
structure Connect4Game where
  board : Board
  players : List String
  current_player_index : Nat
  game_over : Bool
  winner : Option String

/-- The player list chosen by `Connect4Game.__init__` from the mode
string; an invalid mode raises `ValueError`, modelled as `none`. -/
def playersFor (mode : String) : Option (List String) :=
  if mode = "pvp" then some ["p1", "p2"]
  else if mode = "ava" then some ["a1", "a2"]
  else if mode = "pva" then some ["p1", "a1"]
  else none

/-- `Connect4Game.__init__`: empty board, players from the mode,
current player index 0, not over, no winner. -/
def newGame (mode : String) : Option Connect4Game :=
  (playersFor mode).map fun ps =>
    { board := emptyBoard
      players := ps
      current_player_index := 0
      game_over := false
      winner := none }

/-- `Connect4Game.get_current_player`:
`self.players[self.current_player_index]`.  The index is always 0 or 1 in
the source, so the default is never used. -/
def Connect4Game.get_current_player (g : Connect4Game) : String :=
  g.players.getD g.current_player_index ""

/-- The `drop_piece` method acting on the session state: it mutates
`self.board` only, and in particular performs no `game_over` check. -/
def Connect4Game.dropPiece (g : Connect4Game) (col : Int) (p : String) :
    Bool × Connect4Game :=
  let r := drop_piece g.board col p
  (r.1, { g with board := r.2 })

/-- `Connect4Game.play_turn`, with the chosen column passed in (the
source obtains it from stdin or from the AI delegate; printing is
dropped).  On a failed drop the method returns with the state unchanged;
otherwise it declares a win, then a draw, and otherwise advances the
current player index round-robin. -/
def Connect4Game.play_turn (g : Connect4Game) (col : Int) : Connect4Game :=
  let cp := g.get_current_player
  let res := g.dropPiece col cp
  if !res.1 then g
  else
    let g1 := res.2
    match check_winner g1.board with
    | some w => { g1 with game_over := true, winner := some w }
    | none =>
      if is_board_full g1.board then { g1 with game_over := true }
      else { g1 with current_player_index :=
                      (g1.current_player_index + 1) % g1.players.length }

/-!
The integrated variant `connect4_integrated.py`.  Its cells are `' '`
(modelled `none`), `'x'` and `'o'` (modelled `some "x"`, `some "o"`).
-/

/-- The horizontal section of `checkwin`:
`for row in gameboard: for i in range(4)` with the chained comparison
`row[i] == row[i+1] == row[i+2] == row[i+3] and row[i] != ' '`. -/
def cwHoriz (b : Board) : Option String :=
  (List.range 6).findSome? fun row =>
    (List.range 4).findSome? fun i =>
      if b row i = b row (i + 1) ∧ b row (i + 1) = b row (i + 2) ∧
         b row (i + 2) = b row (i + 3) ∧ b row i ≠ none
      then b row i else none

/-- The section of `checkwin` commented "diagonal (down-right)":
`for i in range(4): for j in range(3, 6)` testing
`gameboard[j][i] == gameboard[j-1][i+1] == gameboard[j-2][i+2] == gameboard[j-3][i+3]`. -/
def cwDiagDR (b : Board) : Option String :=
  [0, 1, 2, 3].findSome? fun i =>
    [3, 4, 5].findSome? fun j =>
      if b j i = b (j - 1) (i + 1) ∧ b (j - 1) (i + 1) = b (j - 2) (i + 2) ∧
         b (j - 2) (i + 2) = b (j - 3) (i + 3) ∧ b j i ≠ none
      then b j i else none

/-- The section of `checkwin` commented "diagonal (down-left)":
`for i in range(3, 7): for j in range(3, 6)` testing
`gameboard[j][i] == gameboard[j-1][i-1] == gameboard[j-2][i-2] == gameboard[j-3][i-3]`. -/
def cwDiagDL (b : Board) : Option String :=
  [3, 4, 5, 6].findSome? fun i =>
    [3, 4, 5].findSome? fun j =>
      if b j i = b (j - 1) (i - 1) ∧ b (j - 1) (i - 1) = b (j - 2) (i - 2) ∧
         b (j - 2) (i - 2) = b (j - 3) (i - 3) ∧ b j i ≠ none
      then b j i else none

/-- The vertical section of `checkwin`:
`for i in range(7): for j in range(3)` testing
`gameboard[j][i] == gameboard[j+1][i] == gameboard[j+2][i] == gameboard[j+3][i]`. -/
def cwVert (b : Board) : Option String :=
  (List.range 7).findSome? fun i =>
    (List.range 3).findSome? fun j =>
      if b j i = b (j + 1) i ∧ b (j + 1) i = b (j + 2) i ∧
         b (j + 2) i = b (j + 3) i ∧ b j i ≠ none
      then b j i else none

/-- `checkwin` of `connect4_integrated.py`: the four sections run in
sequence, each returning its winner if found. -/
def checkwin (b : Board) : Option String :=
  (cwHoriz b).or ((cwDiagDR b).or ((cwDiagDL b).or (cwVert b)))

/-- The cell translation performed by `convert_board_to_baml_format`:
`'x'` to `'p1'`, `'o'` to `'a1'`, anything else to the empty sentinel. -/
def cellConvert : Cell → Cell
  | some s => if s = "x" then some "p1" else if s = "o" then some "a1" else none
  | none => none

/-- `convert_board_to_baml_format`: the cell-wise translation of the
whole board. -/
def convert_board_to_baml_format (b : Board) : Board :=
  fun r c => cellConvert (b r c)

/-!
Specification-side definitions, written from the spec's words, to be
compared with the embedded code.
-/

/-- Spec predicate: the cell at `(row, col)` starts a run of at least 4
consecutive cells owned by the same player along direction `d` — the
origin is an in-bounds non-empty cell and the next three offset cells are
in bounds and owned by the same player. -/
def HasRunAt (b : Board) (row col : Int) (d : Int × Int) : Prop :=
  inBounds row col = true ∧ getC b row col ≠ none ∧
  ∀ i ∈ [(1 : Int), 2, 3],
    inBounds (row + d.1 * i) (col + d.2 * i) = true ∧
    getC b (row + d.1 * i) (col + d.2 * i) = getC b row col

/-- Spec predicate: some cell starts a run of at least 4 along one of the
four directions (horizontal, vertical, diagonal down-right, diagonal
down-left). -/
def HasRun (b : Board) : Prop :=
  ∃ row col d, d ∈ directions ∧ HasRunAt b row col d

/-- Four grid cells carrying the same non-empty owner as the first. -/
def Run4 (b : Board) (c0 c1 c2 c3 : Nat × Nat) : Prop :=
  b c0.1 c0.2 ≠ none ∧ b c1.1 c1.2 = b c0.1 c0.2 ∧
  b c2.1 c2.2 = b c0.1 c0.2 ∧ b c3.1 c3.2 = b c0.1 c0.2

/-- `Nat`-indexed form of `HasRun`: an explicit four-in-a-row in one of
the four orientations, with the origin ranges forced by the grid bounds. -/
def NatRun (b : Board) : Prop :=
  (∃ r, r ≤ 5 ∧ ∃ c, c ≤ 3 ∧ Run4 b (r, c) (r, c + 1) (r, c + 2) (r, c + 3)) ∨
  (∃ r, r ≤ 2 ∧ ∃ c, c ≤ 6 ∧ Run4 b (r, c) (r + 1, c) (r + 2, c) (r + 3, c)) ∨
  (∃ r, r ≤ 2 ∧ ∃ c, c ≤ 3 ∧ Run4 b (r, c) (r + 1, c + 1) (r + 2, c + 2) (r + 3, c + 3)) ∨
  (∃ r, r ≤ 2 ∧ ∃ c, 3 ≤ c ∧ c ≤ 6 ∧ Run4 b (r, c) (r + 1, c - 1) (r + 2, c - 2) (r + 3, c - 3))

/-- Spec-side qualifying test for one origin and one direction: the
origin cell is non-empty and the three offset cells are in bounds and
hold the same owner. -/
def qualifiesSpec (b : Board) (row col : Int) (d : Int × Int) : Bool :=
  !(getC b row col == none) &&
  ([(1 : Int), 2, 3].all fun i =>
    inBounds (row + d.1 * i) (col + d.2 * i) &&
    (getC b (row + d.1 * i) (col + d.2 * i) == getC b row col))

/-- Spec-side winner scan, written from the spec's words: visit the
origins in row-major order, at each origin try the four directions in the
fixed order of `directions`, and return the owner of the first qualifying
origin/direction. -/
def checkWinnerSpec (b : Board) : Option String :=
  ((List.range ROWS).flatMap fun row =>
      (List.range COLS).map fun col => (Int.ofNat row, Int.ofNat col)).findSome?
    fun rc =>
      directions.findSome? fun d =>
        if qualifiesSpec b rc.1 rc.2 d then getC b rc.1 rc.2 else none

/-!
Concrete boards and game states used by the individual claims.
-/

/-- Gravity invariant of the spec: within the grid, the cell below an
occupied cell of the same column is occupied. -/
def Gravity (b : Board) : Prop :=
  ∀ c, c < COLS → ∀ r, r + 1 < ROWS → b r c ≠ none → b (r + 1) c ≠ none

/-- Boards reached by dropping into column 0 six times, alternating
players, starting from the empty board. -/
def colDrop1 : Board := (drop_piece emptyBoard 0 "p1").2
def colDrop2 : Board := (drop_piece colDrop1 0 "p2").2
def colDrop3 : Board := (drop_piece colDrop2 0 "p1").2
def colDrop4 : Board := (drop_piece colDrop3 0 "p2").2
def colDrop5 : Board := (drop_piece colDrop4 0 "p1").2
def colDrop6 : Board := (drop_piece colDrop5 0 "p2").2

/-- Board reached by dropping `p1` at columns 0, 1, 2, 3 of the empty
board: `p1` occupies row 5, columns 0 through 3. -/
def horizBoard : Board :=
  (drop_piece (drop_piece (drop_piece (drop_piece emptyBoard 0 "p1").2
    1 "p1").2 2 "p1").2 3 "p1").2

/-- Board reached by four successive drops of `p1` into column 0. -/
def vertBoard : Board :=
  (drop_piece (drop_piece (drop_piece (drop_piece emptyBoard 0 "p1").2
    0 "p1").2 0 "p1").2 0 "p1").2

/-- A constructed diagonal-down-right four-in-a-row:
cells (2,2), (3,3), (4,4), (5,5) owned by `a1`. -/
def diagDRBoard : Board :=
  fun r c => if r = c ∧ 2 ≤ r then some "a1" else none

/-- A constructed diagonal-down-left four-in-a-row:
cells (2,4), (3,3), (4,2), (5,1) owned by `a2`. -/
def diagDLBoard : Board :=
  fun r c => if r + c = 6 ∧ 2 ≤ r then some "a2" else none

/-- A full board with no four-in-a-row: rows paired in stripes of height
2, each row alternating owners, offset by one every two rows. -/
def drawBoard : Board :=
  fun r c => if (r / 2 + c) % 2 = 0 then some "p1" else some "p2"

/-- The session created by `Connect4Game("pvp")`. -/
def pvpGame : Connect4Game :=
  { board := emptyBoard
    players := ["p1", "p2"]
    current_player_index := 0
    game_over := false
    winner := none }

/-- A terminal session: from `pvpGame`, the moves 0,1,0,1,0,1,0 give
`p1` a vertical four-in-a-row in column 0, so the last `play_turn` sets
`game_over`. -/
def termGame : Connect4Game :=
  [(0 : Int), 1, 0, 1, 0, 1, 0].foldl Connect4Game.play_turn pvpGame

/-- A board of the integrated variant (cells `'x'`, `'o'`, `' '`) with an
`x` four-in-a-row on the bottom row. -/
def xoBoard : Board :=
  fun r c => if r = 5 ∧ c ≤ 3 then some "x" else none

/-!
Helper lemmas about `drop_piece`.
-/

theorem setCell_self (b : Board) (row col : Nat) (v : Cell) :
    setCell b row col v row col = v := by
  simp [setCell]

theorem setCell_other (b : Board) (row col : Nat) (v : Cell) (r c : Nat)
    (h : ¬(r = row ∧ c = col)) : setCell b row col v r c = b r c := by
  unfold setCell
  split
  · rename_i hcond
    exact absurd (by simpa using hcond) h
  · rfl

theorem findEmptyDown_spec (b : Board) (col : Nat) :
    ∀ r0 r, findEmptyDown b col r0 = some r →
      r ≤ r0 ∧ b r col = none ∧ ∀ t, r < t → t ≤ r0 → b t col ≠ none := by
  intro r0
  induction r0 with
  | zero =>
    intro r h
    unfold findEmptyDown at h
    split at h
    · rename_i h0
      cases h
      exact ⟨Nat.le_refl 0, by simpa using h0, fun t ht ht' => by omega⟩
    · exact absurd h (by simp)
  | succ n ih =>
    intro r h
    unfold findEmptyDown at h
    split at h
    · rename_i h0
      cases h
      exact ⟨Nat.le_refl _, by simpa using h0, fun t ht ht' => by omega⟩
    · rename_i h0
      obtain ⟨hle, hempty, habove⟩ := ih r h
      refine ⟨by omega, hempty, fun t ht ht' => ?_⟩
      by_cases htop : t = n + 1
      · subst htop
        simpa using h0
      · exact habove t ht (by omega)

theorem findEmptyDown_isSome (b : Board) (col : Nat) (h0 : b 0 col = none) :
    ∀ r0, ∃ r, findEmptyDown b col r0 = some r := by
  intro r0
  induction r0 with
  | zero => exact ⟨0, by simp [findEmptyDown, h0]⟩
  | succ n ih =>
    unfold findEmptyDown
    split
    · exact ⟨n + 1, rfl⟩
    · exact ih

theorem is_valid_column_iff (b : Board) (col : Int) :
    is_valid_column b col = true ↔
      0 ≤ col ∧ col < (COLS : Int) ∧ b 0 col.toNat = none := by
  simp [is_valid_column, and_assoc]

theorem drop_piece_invalid (b : Board) (col : Int) (p : String)
    (h : is_valid_column b col = false) : drop_piece b col p = (false, b) := by
  simp [drop_piece, h]

theorem drop_piece_valid_succeeds (b : Board) (col : Int) (p : String)
    (h : is_valid_column b col = true) : (drop_piece b col p).1 = true := by
  have h0 : b 0 col.toNat = none := ((is_valid_column_iff b col).1 h).2.2
  obtain ⟨r, hr⟩ := findEmptyDown_isSome b col.toNat h0 (ROWS - 1)
  have hr5 : findEmptyDown b col.toNat 5 = some r := hr
  simp [drop_piece, h, hr5]

theorem drop_piece_success (b : Board) (col : Int) (p : String)
    (h : (drop_piece b col p).1 = true) :
    is_valid_column b col = true ∧
    ∃ r, r ≤ 5 ∧ b r col.toNat = none ∧
      (∀ t, r < t → t ≤ 5 → b t col.toNat ≠ none) ∧
      (drop_piece b col p).2 = setCell b r col.toNat (some p) := by
  cases hv : is_valid_column b col
  · rw [drop_piece_invalid b col p hv] at h
    exact absurd h (by simp)
  · refine ⟨rfl, ?_⟩
    cases hf : findEmptyDown b col.toNat (ROWS - 1) with
    | none =>
      have hf5 : findEmptyDown b col.toNat 5 = none := hf
      simp [drop_piece, hv, hf5] at h
    | some r =>
      have hf5 : findEmptyDown b col.toNat 5 = some r := hf
      obtain ⟨hle, hempty, habove⟩ := findEmptyDown_spec b col.toNat (ROWS - 1) r hf
      exact ⟨r, hle, hempty, habove, by simp [drop_piece, hv, hf5]⟩

theorem drop_piece_fst_iff (b : Board) (col : Int) (p : String) :
    (drop_piece b col p).1 = true ↔ is_valid_column b col = true := by
  constructor
  · intro h
    exact (drop_piece_success b col p h).1
  · exact drop_piece_valid_succeeds b col p

/-!
Helper lemmas about `check_winner`.
-/

theorem stepOK_iff (b : Board) (p : String) (row col dr dc i : Int) :
    stepOK b p row col dr dc i = true ↔
      inBounds (row + dr * i) (col + dc * i) = true ∧
      getC b (row + dr * i) (col + dc * i) = some p := by
  simp [stepOK]

theorem runCount_ge4_iff (b : Board) (p : String) (row col dr dc : Int) :
    4 ≤ runCount b p row col dr dc ↔
      stepOK b p row col dr dc 1 = true ∧ stepOK b p row col dr dc 2 = true ∧
      stepOK b p row col dr dc 3 = true := by
  by_cases h1 : stepOK b p row col dr dc 1 = true <;>
  by_cases h2 : stepOK b p row col dr dc 2 = true <;>
  by_cases h3 : stepOK b p row col dr dc 3 = true <;>
  simp [runCount, countRun, h1, h2, h3]

theorem inBounds_iff (r c : Int) :
    inBounds r c = true ↔ 0 ≤ r ∧ r < 6 ∧ 0 ≤ c ∧ c < 7 := by
  simp [inBounds, and_assoc]

theorem check_winner_isSome_iff (b : Board) :
    (check_winner b).isSome = true ↔ HasRun b := by
  constructor
  · intro h
    simp only [check_winner, List.findSome?_isSome_iff, List.mem_range] at h
    obtain ⟨row, hrow, col, hcol, hcell⟩ := h
    cases hbc : b row col with
    | none => rw [hbc] at hcell; simp at hcell
    | some p =>
      rw [hbc] at hcell
      simp only [List.findSome?_isSome_iff] at hcell
      obtain ⟨d, hd, hif⟩ := hcell
      have hcount : 4 ≤ runCount b p row col d.1 d.2 := by
        by_contra hc
        rw [if_neg hc] at hif
        simp at hif
      obtain ⟨h1, h2, h3⟩ := (runCount_ge4_iff b p row col d.1 d.2).1 hcount
      have horig : getC b (row : Int) (col : Int) = some p := by
        simpa [getC] using hbc
      have hrow6 : row < 6 := hrow
      have hcol7 : col < 7 := hcol
      refine ⟨(row : Int), (col : Int), d, hd, ?_, ?_, ?_⟩
      · rw [inBounds_iff]
        omega
      · rw [horig]; exact fun hx => by cases hx
      · intro i hi
        rw [horig]
        have hi' : i = 1 ∨ i = 2 ∨ i = 3 := by simpa using hi
        rcases hi' with rfl | rfl | rfl
        · exact (stepOK_iff b p row col d.1 d.2 1).1 h1
        · exact (stepOK_iff b p row col d.1 d.2 2).1 h2
        · exact (stepOK_iff b p row col d.1 d.2 3).1 h3
  · rintro ⟨row, col, d, hd, hb, hne, hsteps⟩
    rw [inBounds_iff] at hb
    obtain ⟨hr0, hr6, hc0, hc7⟩ := hb
    obtain ⟨p, hp⟩ := Option.ne_none_iff_exists'.1 hne
    have hrow : ((row.toNat : Nat) : Int) = row := Int.toNat_of_nonneg hr0
    have hcol : ((col.toNat : Nat) : Int) = col := Int.toNat_of_nonneg hc0
    have hbc : b row.toNat col.toNat = some p := hp
    simp only [check_winner, List.findSome?_isSome_iff, List.mem_range]
    have hrn : row.toNat < ROWS := by show row.toNat < 6; omega
    have hcn : col.toNat < COLS := by show col.toNat < 7; omega
    refine ⟨row.toNat, hrn, col.toNat, hcn, ?_⟩
    rw [hbc]
    simp only [List.findSome?_isSome_iff]
    refine ⟨d, hd, ?_⟩
    have hcount : 4 ≤ runCount b p (row.toNat : Int) (col.toNat : Int) d.1 d.2 := by
      rw [hrow, hcol, runCount_ge4_iff]
      refine ⟨?_, ?_, ?_⟩ <;>
      · rw [stepOK_iff]
        first
        | exact (by simpa [hp] using hsteps 1 (by simp))
        | exact (by simpa [hp] using hsteps 2 (by simp))
        | exact (by simpa [hp] using hsteps 3 (by simp))
    rw [if_pos hcount]
    rfl

/-!
Bridge between the `Int`-level predicate `HasRun` and the `Nat`-level
predicate `NatRun`.
-/

theorem hasRun_of_natRun (b : Board) : NatRun b → HasRun b := by
  intro h
  rcases h with ⟨r, hr, c, hc, hne, e1, e2, e3⟩ | ⟨r, hr, c, hc, hne, e1, e2, e3⟩ |
    ⟨r, hr, c, hc, hne, e1, e2, e3⟩ | ⟨r, hr, c, hc3, hc, hne, e1, e2, e3⟩
  · refine ⟨(r : Int), (c : Int), (0, 1), by simp [directions], ?_, ?_, ?_⟩
    · rw [inBounds_iff]; omega
    · simpa [getC] using hne
    · intro i hi
      have hi' : i = 1 ∨ i = 2 ∨ i = 3 := by simpa using hi
      have t1 : ((c : Int) + 1).toNat = c + 1 := by omega
      have t2 : ((c : Int) + 2).toNat = c + 2 := by omega
      have t3 : ((c : Int) + 3).toNat = c + 3 := by omega
      rcases hi' with rfl | rfl | rfl
      · exact ⟨by rw [inBounds_iff]; omega, by norm_num; simpa [getC, t1] using e1⟩
      · exact ⟨by rw [inBounds_iff]; omega, by norm_num; simpa [getC, t2] using e2⟩
      · exact ⟨by rw [inBounds_iff]; omega, by norm_num; simpa [getC, t3] using e3⟩
  · refine ⟨(r : Int), (c : Int), (1, 0), by simp [directions], ?_, ?_, ?_⟩
    · rw [inBounds_iff]; omega
    · simpa [getC] using hne
    · intro i hi
      have hi' : i = 1 ∨ i = 2 ∨ i = 3 := by simpa using hi
      have t1 : ((r : Int) + 1).toNat = r + 1 := by omega
      have t2 : ((r : Int) + 2).toNat = r + 2 := by omega
      have t3 : ((r : Int) + 3).toNat = r + 3 := by omega
      rcases hi' with rfl | rfl | rfl
      · exact ⟨by rw [inBounds_iff]; omega, by norm_num; simpa [getC, t1] using e1⟩
      · exact ⟨by rw [inBounds_iff]; omega, by norm_num; simpa [getC, t2] using e2⟩
      · exact ⟨by rw [inBounds_iff]; omega, by norm_num; simpa [getC, t3] using e3⟩
  · refine ⟨(r : Int), (c : Int), (1, 1), by simp [directions], ?_, ?_, ?_⟩
    · rw [inBounds_iff]; omega
    · simpa [getC] using hne
    · intro i hi
      have hi' : i = 1 ∨ i = 2 ∨ i = 3 := by simpa using hi
      have t1 : ((r : Int) + 1).toNat = r + 1 := by omega
      have t2 : ((r : Int) + 2).toNat = r + 2 := by omega
      have t3 : ((r : Int) + 3).toNat = r + 3 := by omega
      have u1 : ((c : Int) + 1).toNat = c + 1 := by omega
      have u2 : ((c : Int) + 2).toNat = c + 2 := by omega
      have u3 : ((c : Int) + 3).toNat = c + 3 := by omega
      rcases hi' with rfl | rfl | rfl
      · exact ⟨by rw [inBounds_iff]; omega, by norm_num; simpa [getC, t1, u1] using e1⟩
      · exact ⟨by rw [inBounds_iff]; omega, by norm_num; simpa [getC, t2, u2] using e2⟩
      · exact ⟨by rw [inBounds_iff]; omega, by norm_num; simpa [getC, t3, u3] using e3⟩
  · refine ⟨(r : Int), (c : Int), (1, -1), by simp [directions], ?_, ?_, ?_⟩
    · rw [inBounds_iff]; omega
    · simpa [getC] using hne
    · intro i hi
      have hi' : i = 1 ∨ i = 2 ∨ i = 3 := by simpa using hi
      have t1 : ((r : Int) + 1).toNat = r + 1 := by omega
      have t2 : ((r : Int) + 2).toNat = r + 2 := by omega
      have t3 : ((r : Int) + 3).toNat = r + 3 := by omega
      have u1 : ((c : Int) + -1 * 1).toNat = c - 1 := by omega
      have u2 : ((c : Int) + -1 * 2).toNat = c - 2 := by omega
      have u3 : ((c : Int) + -1 * 3).toNat = c - 3 := by omega
      rcases hi' with rfl | rfl | rfl
      · refine ⟨by rw [inBounds_iff]; omega, ?_⟩
        norm_num
        have : b ((r : Int) + 1).toNat ((c : Int) + -1 * 1).toNat = b r c := by
          rw [t1, u1]; exact e1
        simpa [getC] using this
      · refine ⟨by rw [inBounds_iff]; omega, ?_⟩
        norm_num
        have : b ((r : Int) + 2).toNat ((c : Int) + -1 * 2).toNat = b r c := by
          rw [t2, u2]; exact e2
        simpa [getC] using this
      · refine ⟨by rw [inBounds_iff]; omega, ?_⟩
        norm_num
        have : b ((r : Int) + 3).toNat ((c : Int) + -1 * 3).toNat = b r c := by
          rw [t3, u3]; exact e3
        simpa [getC] using this

theorem natRun_of_hasRun (b : Board) : HasRun b → NatRun b := by
  rintro ⟨row, col, d, hd, hb, hne, hsteps⟩
  rw [inBounds_iff] at hb
  have hd' : d = ((0 : Int), (1 : Int)) ∨ d = (1, 0) ∨ d = (1, 1) ∨ d = (1, -1) := by
    simpa [directions] using hd
  have s1 := hsteps 1 (by simp)
  have s2 := hsteps 2 (by simp)
  have s3 := hsteps 3 (by simp)
  have hneN : b row.toNat col.toNat ≠ none := by simpa [getC] using hne
  rcases hd' with rfl | rfl | rfl | rfl
  · norm_num [inBounds_iff] at s1 s2 s3
    refine Or.inl ⟨row.toNat, by omega, col.toNat, by omega, hneN, ?_, ?_, ?_⟩
    · have t1 : (col + 1).toNat = col.toNat + 1 := by omega
      simpa [getC, t1] using s1.2
    · have t2 : (col + 2).toNat = col.toNat + 2 := by omega
      simpa [getC, t2] using s2.2
    · have t3 : (col + 3).toNat = col.toNat + 3 := by omega
      simpa [getC, t3] using s3.2
  · norm_num [inBounds_iff] at s1 s2 s3
    refine Or.inr (Or.inl ⟨row.toNat, by omega, col.toNat, by omega, hneN, ?_, ?_, ?_⟩)
    · have t1 : (row + 1).toNat = row.toNat + 1 := by omega
      simpa [getC, t1] using s1.2
    · have t2 : (row + 2).toNat = row.toNat + 2 := by omega
      simpa [getC, t2] using s2.2
    · have t3 : (row + 3).toNat = row.toNat + 3 := by omega
      simpa [getC, t3] using s3.2
  · norm_num [inBounds_iff] at s1 s2 s3
    refine Or.inr (Or.inr (Or.inl
      ⟨row.toNat, by omega, col.toNat, by omega, hneN, ?_, ?_, ?_⟩))
    · have t1 : (row + 1).toNat = row.toNat + 1 := by omega
      have u1 : (col + 1).toNat = col.toNat + 1 := by omega
      simpa [getC, t1, u1] using s1.2
    · have t2 : (row + 2).toNat = row.toNat + 2 := by omega
      have u2 : (col + 2).toNat = col.toNat + 2 := by omega
      simpa [getC, t2, u2] using s2.2
    · have t3 : (row + 3).toNat = row.toNat + 3 := by omega
      have u3 : (col + 3).toNat = col.toNat + 3 := by omega
      simpa [getC, t3, u3] using s3.2
  · norm_num [inBounds_iff] at s1 s2 s3
    refine Or.inr (Or.inr (Or.inr
      ⟨row.toNat, by omega, col.toNat, by omega, by omega, hneN, ?_, ?_, ?_⟩))
    · have t1 : (row + 1).toNat = row.toNat + 1 := by omega
      have u1 : (col + -1).toNat = col.toNat - 1 := by omega
      simpa [getC, t1, u1] using s1.2
    · have t2 : (row + 2).toNat = row.toNat + 2 := by omega
      have u2 : (col + -2).toNat = col.toNat - 2 := by omega
      simpa [getC, t2, u2] using s2.2
    · have t3 : (row + 3).toNat = row.toNat + 3 := by omega
      have u3 : (col + -3).toNat = col.toNat - 3 := by omega
      simpa [getC, t3, u3] using s3.2

/-!
Helper lemmas about the sections of `checkwin`.
-/

theorem cwHoriz_isSome_iff (b : Board) :
    (cwHoriz b).isSome = true ↔
      ∃ r, r ≤ 5 ∧ ∃ c, c ≤ 3 ∧
        Run4 b (r, c) (r, c + 1) (r, c + 2) (r, c + 3) := by
  simp only [cwHoriz, List.findSome?_isSome_iff, List.mem_range]
  constructor
  · rintro ⟨row, hrow, i, hi, hif⟩
    have hcond : b row i = b row (i + 1) ∧ b row (i + 1) = b row (i + 2) ∧
        b row (i + 2) = b row (i + 3) ∧ b row i ≠ none := by
      by_contra hc
      rw [if_neg hc] at hif
      simp at hif
    obtain ⟨e1, e2, e3, hne⟩ := hcond
    exact ⟨row, by omega, i, by omega, hne, e1.symm, (e1.trans e2).symm,
      ((e1.trans e2).trans e3).symm⟩
  · rintro ⟨r, hr, c, hc, hne, f1, f2, f3⟩
    refine ⟨r, by omega, c, by omega, ?_⟩
    rw [if_pos ⟨f1.symm, f1.trans f2.symm, f2.trans f3.symm, hne⟩]
    simpa [Option.isSome_iff_ne_none] using hne

theorem cwVert_isSome_iff (b : Board) :
    (cwVert b).isSome = true ↔
      ∃ r, r ≤ 2 ∧ ∃ c, c ≤ 6 ∧
        Run4 b (r, c) (r + 1, c) (r + 2, c) (r + 3, c) := by
  simp only [cwVert, List.findSome?_isSome_iff, List.mem_range]
  constructor
  · rintro ⟨i, hi, j, hj, hif⟩
    have hcond : b j i = b (j + 1) i ∧ b (j + 1) i = b (j + 2) i ∧
        b (j + 2) i = b (j + 3) i ∧ b j i ≠ none := by
      by_contra hc
      rw [if_neg hc] at hif
      simp at hif
    obtain ⟨e1, e2, e3, hne⟩ := hcond
    exact ⟨j, by omega, i, by omega, hne, e1.symm, (e1.trans e2).symm,
      ((e1.trans e2).trans e3).symm⟩
  · rintro ⟨r, hr, c, hc, hne, f1, f2, f3⟩
    refine ⟨c, by omega, r, by omega, ?_⟩
    rw [if_pos ⟨f1.symm, f1.trans f2.symm, f2.trans f3.symm, hne⟩]
    simpa [Option.isSome_iff_ne_none] using hne

theorem cwDiagDR_isSome_iff (b : Board) :
    (cwDiagDR b).isSome = true ↔
      ∃ r, r ≤ 2 ∧ ∃ c, 3 ≤ c ∧ c ≤ 6 ∧
        Run4 b (r, c) (r + 1, c - 1) (r + 2, c - 2) (r + 3, c - 3) := by
  simp only [cwDiagDR, List.findSome?_isSome_iff]
  constructor
  · rintro ⟨i, hi, j, hj, hif⟩
    have hi' : i ≤ 3 := by simp at hi; omega
    have hj' : 3 ≤ j ∧ j ≤ 5 := by simp at hj; omega
    have hcond : b j i = b (j - 1) (i + 1) ∧ b (j - 1) (i + 1) = b (j - 2) (i + 2) ∧
        b (j - 2) (i + 2) = b (j - 3) (i + 3) ∧ b j i ≠ none := by
      by_contra hc
      rw [if_neg hc] at hif
      simp at hif
    obtain ⟨e1, e2, e3, hne⟩ := hcond
    have horig : b j i = b (j - 3) (i + 3) := (e1.trans e2).trans e3
    refine ⟨j - 3, by omega, i + 3, by omega, by omega, ?_, ?_, ?_, ?_⟩
    · rw [← horig]; exact hne
    · have c1 : j - 3 + 1 = j - 2 := by omega
      have c2 : i + 3 - 1 = i + 2 := by omega
      rw [c1, c2]; exact e3
    · have c1 : j - 3 + 2 = j - 1 := by omega
      have c2 : i + 3 - 2 = i + 1 := by omega
      rw [c1, c2]; exact e2.trans e3
    · have c1 : j - 3 + 3 = j := by omega
      have c2 : i + 3 - 3 = i := by omega
      rw [c1, c2]; exact horig
  · rintro ⟨r, hr, c, hc3, hc6, hne, f1, f2, f3⟩
    refine ⟨c - 3, by simp; omega, r + 3, by simp; omega, ?_⟩
    have c1 : r + 3 - 1 = r + 2 := by omega
    have c2 : c - 3 + 1 = c - 2 := by omega
    have c3 : r + 3 - 2 = r + 1 := by omega
    have c4 : c - 3 + 2 = c - 1 := by omega
    have c5 : r + 3 - 3 = r := by omega
    have c6 : c - 3 + 3 = c := by omega
    rw [c1, c2, c3, c4, c5, c6,
      if_pos ⟨f3.trans f2.symm, f2.trans f1.symm, f1, by rw [f3]; exact hne⟩, f3]
    simpa [Option.isSome_iff_ne_none] using hne

theorem cwDiagDL_isSome_iff (b : Board) :
    (cwDiagDL b).isSome = true ↔
      ∃ r, r ≤ 2 ∧ ∃ c, c ≤ 3 ∧
        Run4 b (r, c) (r + 1, c + 1) (r + 2, c + 2) (r + 3, c + 3) := by
  simp only [cwDiagDL, List.findSome?_isSome_iff]
  constructor
  · rintro ⟨i, hi, j, hj, hif⟩
    have hi' : 3 ≤ i ∧ i ≤ 6 := by simp at hi; omega
    have hj' : 3 ≤ j ∧ j ≤ 5 := by simp at hj; omega
    have hcond : b j i = b (j - 1) (i - 1) ∧ b (j - 1) (i - 1) = b (j - 2) (i - 2) ∧
        b (j - 2) (i - 2) = b (j - 3) (i - 3) ∧ b j i ≠ none := by
      by_contra hc
      rw [if_neg hc] at hif
      simp at hif
    obtain ⟨e1, e2, e3, hne⟩ := hcond
    have horig : b j i = b (j - 3) (i - 3) := (e1.trans e2).trans e3
    refine ⟨j - 3, by omega, i - 3, by omega, ?_, ?_, ?_, ?_⟩
    · rw [← horig]; exact hne
    · have c1 : j - 3 + 1 = j - 2 := by omega
      have c2 : i - 3 + 1 = i - 2 := by omega
      rw [c1, c2]; exact e3
    · have c1 : j - 3 + 2 = j - 1 := by omega
      have c2 : i - 3 + 2 = i - 1 := by omega
      rw [c1, c2]; exact e2.trans e3
    · have c1 : j - 3 + 3 = j := by omega
      have c2 : i - 3 + 3 = i := by omega
      rw [c1, c2]; exact horig
  · rintro ⟨r, hr, c, hc, hne, f1, f2, f3⟩
    refine ⟨c + 3, by simp; omega, r + 3, by simp; omega, ?_⟩
    have c1 : r + 3 - 1 = r + 2 := by omega
    have c2 : c + 3 - 1 = c + 2 := by omega
    have c3 : r + 3 - 2 = r + 1 := by omega
    have c4 : c + 3 - 2 = c + 1 := by omega
    have c5 : r + 3 - 3 = r := by omega
    have c6 : c + 3 - 3 = c := by omega
    rw [c1, c2, c3, c4, c5, c6,
      if_pos ⟨f3.trans f2.symm, f2.trans f1.symm, f1, by rw [f3]; exact hne⟩, f3]
    simpa [Option.isSome_iff_ne_none] using hne

/-- `checkwin` finds a winner exactly when the board has a
four-in-a-row. -/
theorem checkwin_isSome_iff (b : Board) :
    (checkwin b).isSome = true ↔ NatRun b := by
  have h : (checkwin b).isSome = true ↔
      (cwHoriz b).isSome = true ∨ (cwDiagDR b).isSome = true ∨
      (cwDiagDL b).isSome = true ∨ (cwVert b).isSome = true := by
    simp [checkwin, Option.isSome_or, Bool.or_eq_true]
  rw [h, cwHoriz_isSome_iff, cwDiagDR_isSome_iff, cwDiagDL_isSome_iff,
    cwVert_isSome_iff]
  unfold NatRun
  constructor
  · rintro (h | h | h | h)
    · exact Or.inl h
    · exact Or.inr (Or.inr (Or.inr h))
    · exact Or.inr (Or.inr (Or.inl h))
    · exact Or.inr (Or.inl h)
  · rintro (h | h | h | h)
    · exact Or.inl h
    · exact Or.inr (Or.inr (Or.inr h))
    · exact Or.inr (Or.inr (Or.inl h))
    · exact Or.inr (Or.inl h)

/-!
Helper lemmas for the ordered-scan formulation `checkWinnerSpec`.
-/

theorem findSome?_flatMap {α β γ : Type} (l : List α) (g : α → List β)
    (f : β → Option γ) :
    (l.flatMap g).findSome? f = l.findSome? fun a => (g a).findSome? f := by
  induction l with
  | nil => rfl
  | cons a l ih =>
    rw [List.flatMap_cons, List.findSome?_append, ih, List.findSome?_cons]
    cases (g a).findSome? f <;> rfl

theorem qualifiesSpec_iff_runCount (b : Board) (row col : Nat) (p : String)
    (hbc : b row col = some p) (d : Int × Int) :
    qualifiesSpec b (row : Int) (col : Int) d = true ↔
      4 ≤ runCount b p (row : Int) (col : Int) d.1 d.2 := by
  have horig : getC b (row : Int) (col : Int) = some p := by simpa [getC] using hbc
  rw [runCount_ge4_iff]
  simp only [qualifiesSpec, horig, Bool.and_eq_true, Bool.not_eq_eq_eq_not,
    List.all_eq_true]
  constructor
  · rintro ⟨-, hall⟩
    refine ⟨?_, ?_, ?_⟩ <;> rw [stepOK_iff]
    · simpa using hall 1 (by simp)
    · simpa using hall 2 (by simp)
    · simpa using hall 3 (by simp)
  · rintro ⟨h1, h2, h3⟩
    rw [stepOK_iff] at h1 h2 h3
    refine ⟨by simp, ?_⟩
    intro i hi
    have hi' : i = 1 ∨ i = 2 ∨ i = 3 := by simpa using hi
    rcases hi' with rfl | rfl | rfl
    · exact ⟨by simpa using h1.1, by simpa using h1.2⟩
    · exact ⟨by simpa using h2.1, by simpa using h2.2⟩
    · exact ⟨by simpa using h3.1, by simpa using h3.2⟩

theorem check_winner_inner_eq (b : Board) (row col : Nat) :
    (match b row col with
      | none => none
      | some p =>
        directions.findSome? fun d =>
          if 4 ≤ runCount b p row col d.1 d.2 then some p else none) =
    (directions.findSome? fun d =>
      if qualifiesSpec b (row : Int) (col : Int) d then
        getC b (row : Int) (col : Int) else none) := by
  cases hbc : b row col with
  | none =>
    have hnone : (directions.findSome? fun d =>
        if qualifiesSpec b (row : Int) (col : Int) d then
          getC b (row : Int) (col : Int) else none) = none := by
      refine List.findSome?_eq_none_iff.2 fun d _ => ?_
      have hq : qualifiesSpec b (row : Int) (col : Int) d = false := by
        simp [qualifiesSpec, getC, hbc]
      rw [hq]
      simp
    exact hnone.symm
  | some p =>
    show (directions.findSome? fun d =>
        if 4 ≤ runCount b p (row : Int) (col : Int) d.1 d.2 then some p
        else none) = _
    have hfun : (fun (d : Int × Int) =>
        if 4 ≤ runCount b p (row : Int) (col : Int) d.1 d.2 then some p
        else none) =
        (fun (d : Int × Int) =>
          if qualifiesSpec b (row : Int) (col : Int) d then
            getC b (row : Int) (col : Int) else none) := by
      funext d
      by_cases hq : 4 ≤ runCount b p (row : Int) (col : Int) d.1 d.2
      · rw [if_pos hq, if_pos ((qualifiesSpec_iff_runCount b row col p hbc d).2 hq)]
        simp [getC, hbc]
      · rw [if_neg hq, if_neg ?_]
        intro hc
        exact hq ((qualifiesSpec_iff_runCount b row col p hbc d).1 hc)
    rw [hfun]

theorem findSome?_ext {α β : Type} {f g : α → Option β} (l : List α)
    (h : ∀ a, f a = g a) : l.findSome? f = l.findSome? g := by
  rw [funext h]

theorem check_winner_eq_checkWinnerSpec (b : Board) :
    check_winner b = checkWinnerSpec b := by
  unfold check_winner checkWinnerSpec
  rw [findSome?_flatMap]
  refine findSome?_ext _ fun row => ?_
  rw [List.findSome?_map (fun col : Nat => (Int.ofNat row, Int.ofNat col))
    (List.range COLS)]
  refine findSome?_ext _ fun col => ?_
  exact check_winner_inner_eq b row col

/-!
Helper lemmas about `is_board_full`, gravity, and the cell translation.
-/

theorem is_board_full_iff (b : Board) :
    is_board_full b = true ↔ ∀ c, c < COLS → b 0 c ≠ none := by
  simp [is_board_full, List.all_eq_true, List.mem_range]

theorem drop_piece_fail (b : Board) (col : Int) (p : String)
    (h : (drop_piece b col p).1 = false) : (drop_piece b col p).2 = b := by
  cases hv : is_valid_column b col
  · rw [drop_piece_invalid b col p hv]
  · have hs := drop_piece_valid_succeeds b col p hv
    rw [h] at hs
    cases hs

theorem gravity_emptyBoard : Gravity emptyBoard := by
  intro c hc r hr h
  exact absurd rfl h

theorem gravity_drop (b : Board) (col : Int) (p : String) (hg : Gravity b) :
    Gravity (drop_piece b col p).2 := by
  cases hsucc : (drop_piece b col p).1
  · rw [drop_piece_fail b col p hsucc]
    exact hg
  · obtain ⟨-, r, hr5, hempty, habove, hset⟩ := drop_piece_success b col p hsucc
    rw [hset]
    intro c hc rr hrr hocc
    by_cases hcol : c = col.toNat
    · by_cases h1 : rr + 1 = r
      · have hset1 : setCell b r col.toNat (some p) (rr + 1) c = some p := by
          rw [hcol, h1]
          exact setCell_self b r col.toNat (some p)
        rw [hset1]
        exact fun hx => by cases hx
      · rw [setCell_other b r col.toNat (some p) (rr + 1) c (by tauto)]
        by_cases h2 : rr = r
        · rw [hcol]
          have hrr6 : rr + 1 < 6 := hrr
          exact habove (rr + 1) (by omega) (by omega)
        · rw [setCell_other b r col.toNat (some p) rr c (by tauto)] at hocc
          exact hg c hc rr hrr hocc
    · rw [setCell_other b r col.toNat (some p) (rr + 1) c (by tauto)]
      rw [setCell_other b r col.toNat (some p) rr c (by tauto)] at hocc
      exact hg c hc rr hrr hocc

theorem cellConvert_ne_none_iff (c : Cell) :
    cellConvert c ≠ none ↔ c = some "x" ∨ c = some "o" := by
  cases c with
  | none => simp [cellConvert]
  | some s =>
    by_cases hx : s = "x"
    · subst hx; simp [cellConvert]
    · by_cases ho : s = "o"
      · subst ho; simp [cellConvert]
      · simp [cellConvert, hx, ho]

theorem cellConvert_inj (a a' : Cell) (h : cellConvert a = cellConvert a')
    (hne : cellConvert a' ≠ none) : a = a' := by
  rcases (cellConvert_ne_none_iff a').1 hne with rfl | rfl
  · rcases (cellConvert_ne_none_iff a).1 (h ▸ hne) with rfl | rfl
    · rfl
    · rw [show cellConvert (some "o") = some "a1" from rfl,
        show cellConvert (some "x") = some "p1" from rfl] at h
      exact absurd h (by decide)
  · rcases (cellConvert_ne_none_iff a).1 (h ▸ hne) with rfl | rfl
    · rw [show cellConvert (some "x") = some "p1" from rfl,
        show cellConvert (some "o") = some "a1" from rfl] at h
      exact absurd h (by decide)
    · rfl

theorem run4_convert_of (b : Board) (c0 c1 c2 c3 : Nat × Nat)
    (hx : b c0.1 c0.2 = some "x" ∨ b c0.1 c0.2 = some "o")
    (h : Run4 b c0 c1 c2 c3) :
    Run4 (convert_board_to_baml_format b) c0 c1 c2 c3 := by
  obtain ⟨hne, f1, f2, f3⟩ := h
  exact ⟨(cellConvert_ne_none_iff _).2 hx, congrArg cellConvert f1,
    congrArg cellConvert f2, congrArg cellConvert f3⟩

theorem run4_convert_rev (b : Board) (c0 c1 c2 c3 : Nat × Nat)
    (h : Run4 (convert_board_to_baml_format b) c0 c1 c2 c3) :
    Run4 b c0 c1 c2 c3 := by
  obtain ⟨hne, f1, f2, f3⟩ := h
  have hb0 : b c0.1 c0.2 ≠ none := by
    intro hx
    exact hne (by simp [convert_board_to_baml_format, hx, cellConvert])
  exact ⟨hb0, cellConvert_inj _ _ f1 hne, cellConvert_inj _ _ f2 hne,
    cellConvert_inj _ _ f3 hne⟩

theorem natRun_convert_iff (b : Board)
    (hcells : ∀ r, r < ROWS → ∀ c, c < COLS →
      b r c = none ∨ b r c = some "x" ∨ b r c = some "o") :
    NatRun b ↔ NatRun (convert_board_to_baml_format b) := by
  have hxo : ∀ r c, r < ROWS → c < COLS → b r c ≠ none →
      b r c = some "x" ∨ b r c = some "o" := by
    intro r c hr hc hne
    rcases hcells r hr c hc with h | h | h
    · exact absurd h hne
    · exact Or.inl h
    · exact Or.inr h
  constructor
  · rintro (⟨r, hr, c, hc, h4⟩ | ⟨r, hr, c, hc, h4⟩ | ⟨r, hr, c, hc, h4⟩ |
      ⟨r, hr, c, hc3, hc, h4⟩)
    · exact Or.inl ⟨r, hr, c, hc, run4_convert_of b _ _ _ _
        (hxo r c (by show r < 6; omega) (by show c < 7; omega) h4.1) h4⟩
    · exact Or.inr (Or.inl ⟨r, hr, c, hc, run4_convert_of b _ _ _ _
        (hxo r c (by show r < 6; omega) (by show c < 7; omega) h4.1) h4⟩)
    · exact Or.inr (Or.inr (Or.inl ⟨r, hr, c, hc, run4_convert_of b _ _ _ _
        (hxo r c (by show r < 6; omega) (by show c < 7; omega) h4.1) h4⟩))
    · exact Or.inr (Or.inr (Or.inr ⟨r, hr, c, hc3, hc, run4_convert_of b _ _ _ _
        (hxo r c (by show r < 6; omega) (by show c < 7; omega) h4.1) h4⟩))
  · rintro (⟨r, hr, c, hc, h4⟩ | ⟨r, hr, c, hc, h4⟩ | ⟨r, hr, c, hc, h4⟩ |
      ⟨r, hr, c, hc3, hc, h4⟩)
    · exact Or.inl ⟨r, hr, c, hc, run4_convert_rev b _ _ _ _ h4⟩
    · exact Or.inr (Or.inl ⟨r, hr, c, hc, run4_convert_rev b _ _ _ _ h4⟩)
    · exact Or.inr (Or.inr (Or.inl ⟨r, hr, c, hc, run4_convert_rev b _ _ _ _ h4⟩))
    · exact Or.inr (Or.inr (Or.inr ⟨r, hr, c, hc3, hc,
        run4_convert_rev b _ _ _ _ h4⟩))

/-!
The claims.
-/

/-- Claim C1: for every 6x7 board, `check_winner` returns a non-empty
player exactly when some cell starts a run of at least 4 consecutive
cells owned by the same player along one of the four directions
(horizontal, vertical, diagonal down-right, diagonal down-left); in
particular, on any board with no such run — for example three in a row
with the fourth cell empty or blocked — it returns `none`. -/
theorem claim_C1 (b : Board) :
    ((check_winner b).isSome = true ↔ HasRun b) ∧
    (check_winner b = none ↔ ¬HasRun b) := by
  have h := check_winner_isSome_iff b
  refine ⟨h, ?_⟩
  rw [← h]
  cases check_winner b <;> simp

/-- Claim C2: for every column index outside `[0, COLS)` and for every
column whose topmost cell is occupied, `is_valid_column` is false and
`drop_piece` returns false leaving every cell of the grid unchanged (the
embedding is a total function, so no exception is possible). -/
theorem claim_C2 (b : Board) (col : Int) (p : String)
    (h : ¬(0 ≤ col ∧ col < (COLS : Int)) ∨ b 0 col.toNat ≠ none) :
    is_valid_column b col = false ∧ drop_piece b col p = (false, b) := by
  have hv : is_valid_column b col = false := by
    cases hvb : is_valid_column b col
    · rfl
    · obtain ⟨h1, h2, h3⟩ := (is_valid_column_iff b col).1 hvb
      rcases h with h | h
      · exact absurd ⟨h1, h2⟩ h
      · exact absurd h3 h
  exact ⟨hv, drop_piece_invalid b col p hv⟩

theorem claim_C2_witness :
    is_valid_column emptyBoard 9 = false ∧
    drop_piece emptyBoard 9 "p1" = (false, emptyBoard) :=
  claim_C2 emptyBoard 9 "p1" (Or.inl (by decide))

/-- Claim C3 counterexample: `termGame` is a terminal session (`p1` has
a vertical four-in-a-row, `game_over` is set by `play_turn`), yet a
further `dropPiece` into column 2 is accepted and changes cell (5,2),
refuting the claim that once a session is terminal every subsequent
`dropPiece` call is rejected and leaves every cell unchanged. -/
theorem claim_C3_counterexample :
    termGame.game_over = true ∧ termGame.winner = some "p1" ∧
    (termGame.dropPiece 2 "p2").1 = true ∧
    termGame.board 5 2 = none ∧
    (termGame.dropPiece 2 "p2").2.board 5 2 = some "p2" := by decide

/-- Claim C3 (amended): `drop_piece` performs no terminal-state check:
even on a session whose `game_over` flag is set, a drop into a valid
non-full column succeeds and mutates a previously empty cell of the
grid; post-terminal drops are rejected only when the column is invalid
or full, exactly as mid-game.  Post-terminal immutability holds in the
program only because the `play` loop stops calling `play_turn`. -/
theorem claim_C3 (g : Connect4Game) (col : Int) (p : String)
    (_hterm : g.game_over = true)
    (hvalid : is_valid_column g.board col = true) :
    (g.dropPiece col p).1 = true ∧
    ∃ r, r < ROWS ∧ g.board r col.toNat = none ∧
      (g.dropPiece col p).2.board r col.toNat = some p := by
  have h1 : (drop_piece g.board col p).1 = true :=
    drop_piece_valid_succeeds g.board col p hvalid
  obtain ⟨-, r, hr5, hempty, -, hset⟩ := drop_piece_success g.board col p h1
  refine ⟨h1, r, by show r < 6; omega, hempty, ?_⟩
  show (drop_piece g.board col p).2 r col.toNat = some p
  rw [hset]
  exact setCell_self g.board r col.toNat (some p)

theorem claim_C3_witness :
    termGame.game_over = true ∧ is_valid_column termGame.board 2 = true ∧
    ((termGame.dropPiece 2 "p2").1 = true ∧
      ∃ r, r < ROWS ∧ termGame.board r (2 : Int).toNat = none ∧
        (termGame.dropPiece 2 "p2").2.board r (2 : Int).toNat = some "p2") :=
  ⟨by decide, by decide, claim_C3 termGame 2 "p2" (by decide) (by decide)⟩

/-- Claim C4: whenever `drop_piece` returns true, exactly one cell
changed: the empty cell with the greatest row index in the chosen column
now holds the player, and every other cell holds the same value as
before the call. -/
theorem claim_C4 (b : Board) (col : Int) (p : String)
    (h : (drop_piece b col p).1 = true) :
    ∃ r, r < ROWS ∧ b r col.toNat = none ∧
      (∀ t, r < t → t < ROWS → b t col.toNat ≠ none) ∧
      (drop_piece b col p).2 r col.toNat = some p ∧
      ∀ r' c', ¬(r' = r ∧ c' = col.toNat) →
        (drop_piece b col p).2 r' c' = b r' c' := by
  obtain ⟨-, r, hr5, hempty, habove, hset⟩ := drop_piece_success b col p h
  refine ⟨r, by show r < 6; omega, hempty, ?_, ?_, ?_⟩
  · intro t ht ht6
    have ht6' : t < 6 := ht6
    exact habove t ht (by omega)
  · rw [hset]
    exact setCell_self b r col.toNat (some p)
  · intro r' c' hne
    rw [hset]
    exact setCell_other b r col.toNat (some p) r' c' hne

theorem claim_C4_witness :
    (drop_piece emptyBoard 0 "p1").1 = true ∧
    ∃ r, r < ROWS ∧ emptyBoard r (0 : Int).toNat = none ∧
      (∀ t, r < t → t < ROWS → emptyBoard t (0 : Int).toNat ≠ none) ∧
      (drop_piece emptyBoard 0 "p1").2 r (0 : Int).toNat = some "p1" ∧
      ∀ r' c', ¬(r' = r ∧ c' = (0 : Int).toNat) →
        (drop_piece emptyBoard 0 "p1").2 r' c' = emptyBoard r' c' :=
  ⟨by decide, claim_C4 emptyBoard 0 "p1" (by decide)⟩

/-- Claim C5: the gravity invariant — no empty cell below an occupied
cell of the same column — holds on the freshly created board and is
preserved by every `drop_piece` call. -/
theorem claim_C5 :
    Gravity emptyBoard ∧
    ∀ (b : Board) (col : Int) (p : String),
      Gravity b → Gravity (drop_piece b col p).2 :=
  ⟨gravity_emptyBoard, gravity_drop⟩

theorem claim_C5_witness : Gravity (drop_piece emptyBoard 0 "p1").2 :=
  claim_C5.2 emptyBoard 0 "p1" claim_C5.1

/-- Claim C6: starting from the empty board, six successful drops into
column 0 (alternating players) fill column 0 from row 5 up to row 0 in
that order, each call returning true, and the seventh drop into
column 0 returns false. -/
theorem claim_C6 :
    (drop_piece emptyBoard 0 "p1").1 = true ∧ colDrop1 5 0 = some "p1" ∧
    (drop_piece colDrop1 0 "p2").1 = true ∧ colDrop2 4 0 = some "p2" ∧
    (drop_piece colDrop2 0 "p1").1 = true ∧ colDrop3 3 0 = some "p1" ∧
    (drop_piece colDrop3 0 "p2").1 = true ∧ colDrop4 2 0 = some "p2" ∧
    (drop_piece colDrop4 0 "p1").1 = true ∧ colDrop5 1 0 = some "p1" ∧
    (drop_piece colDrop5 0 "p2").1 = true ∧ colDrop6 0 0 = some "p2" ∧
    (drop_piece colDrop6 0 "p1").1 = false := by decide

/-- Claim C7: each winning orientation is detected — a horizontal
four-in-a-row built by drops at row 5 columns 0..3, a vertical one built
by four drops into column 0, and constructed diagonal down-right and
down-left four-in-a-rows each make `check_winner` return their owner. -/
theorem claim_C7 :
    check_winner horizBoard = some "p1" ∧
    check_winner vertBoard = some "p1" ∧
    check_winner diagDRBoard = some "a1" ∧
    check_winner diagDLBoard = some "a2" := by decide

/-- Claim C8: `is_board_full` is true exactly when the topmost cell of
every column is occupied; and on the fully occupied `drawBoard`, which
has no four-in-a-row, `is_board_full` is true while `check_winner`
returns `none`. -/
theorem claim_C8 :
    (∀ b : Board, is_board_full b = true ↔ ∀ c, c < COLS → b 0 c ≠ none) ∧
    is_board_full drawBoard = true ∧
    (∀ r, r < ROWS → ∀ c, c < COLS → drawBoard r c ≠ none) ∧
    check_winner drawBoard = none :=
  ⟨is_board_full_iff, by decide, by decide, by decide⟩

/-- Claim C9: `check_winner` is a pure function of the board (the
embedding returns a value and no state, so two calls on the same board
are the same term), and it equals the spec's ordered scan: origins in
row-major order, at each origin the four directions in the fixed order
horizontal, vertical, diagonal down-right, diagonal down-left, returning
the owner of the first qualifying origin/direction. -/
theorem claim_C9 (b : Board) : check_winner b = checkWinnerSpec b :=
  check_winner_eq_checkWinnerSpec b

/-- Claim C10: on every board over the cells `'x'`, `'o'`, `' '`, the
integrated variant `checkwin` finds a winner exactly when
`check_winner` finds one on the board translated cell-wise by
`convert_board_to_baml_format`. -/
theorem claim_C10 (b : Board)
    (hcells : ∀ r, r < ROWS → ∀ c, c < COLS →
      b r c = none ∨ b r c = some "x" ∨ b r c = some "o") :
    ((checkwin b).isSome = true ↔
      (check_winner (convert_board_to_baml_format b)).isSome = true) := by
  rw [checkwin_isSome_iff, check_winner_isSome_iff]
  constructor
  · intro h
    exact hasRun_of_natRun _ ((natRun_convert_iff b hcells).1 h)
  · intro h
    exact (natRun_convert_iff b hcells).2 (natRun_of_hasRun _ h)

theorem claim_C10_witness :
    (checkwin xoBoard).isSome = true ↔
    (check_winner (convert_board_to_baml_format xoBoard)).isSome = true :=
  claim_C10 xoBoard (by decide)

end Connect4
